import Mathlib

/-!
Verification model of the NetworkAttackSimulator core
(`cyber_attack_simulator/envs/environment.py` and the environment it drives).

The episode controller (`CyberAttackSimulatorEnv` in `environment.py`) is
embedded directly from the source.  The collaborating modules `state.py`,
`network.py`, `action.py` and `loader.py` are not part of the provided
sources; the definitions for those are modelled from the specification
(sections 3, 4.2, 4.3 and 4.4) and from the behaviour pinned down by the
repository's test suites, and each such definition says so in its doc
comment.

Machine-level observations, the network ground truth, actions and the
episode state are all plain inductive data, so every operation below is
executable and every predicate decidable.
-/

namespace NAS

/-- An address is a `(subnet id, host id)` pair, as in the source and spec. -/
abbrev Address := Nat × Nat

/-- The tri-state service belief, from `class Service(Enum)` in
`environment.py`: `unknown = 0`, `present = 1`, `absent = 2`. -/
inductive Service where
  | unknown
  | present
  | absent
deriving DecidableEq

/-- Modelled from the spec: one Observation record per address, containing
`compromised : bool`, `reachable : bool` and a `service_belief` vector
(spec section 3); in the source this is the per-address value
`[compromised, reachable, service_info]` stored by `reset`. -/
structure MachineObs where
  compromised : Bool
  reachable : Bool
  services : List Service
deriving DecidableEq

/-- Modelled from the spec: the Observation / agent state of `state.py`
(not in the sources), an ordered dictionary from address to its
per-address record (spec sections 3 and 4.4).  An ordered association
list keeps the dictionary's insertion order and decidable equality. -/
structure State where
  obs : List (Address × MachineObs)
deriving DecidableEq

/-- Look up the record of address `m` (the dictionary read underlying the
`compromised` / `reachable` / `service_state` queries of `state.py`). -/
def State.lookup (s : State) (m : Address) : Option MachineObs :=
  (s.obs.find? (fun p => decide (p.1 = m))).map Prod.snd

/-- Rewrite the record of address `m` through `f`, leaving all other
addresses untouched (the dictionary write underlying the mutators of
`state.py`). -/
def State.update (s : State) (m : Address) (f : MachineObs → MachineObs) : State :=
  ⟨s.obs.map (fun p => if p.1 = m then (p.1, f p.2) else p)⟩

/-- Modelled from the spec: `is_compromised` query of the Observation
(spec section 4.4); an address with no record reads as not compromised. -/
def State.compromised (s : State) (m : Address) : Bool :=
  match s.lookup m with
  | some o => o.compromised
  | none => false

/-- Modelled from the spec: `is_reachable` query of the Observation
(spec section 4.4); an address with no record reads as not reachable. -/
def State.reachable (s : State) (m : Address) : Bool :=
  match s.lookup m with
  | some o => o.reachable
  | none => false

/-- Modelled from the spec: `service_belief(address, index)` query
(spec section 4.4). -/
def State.service_state (s : State) (m : Address) (i : Nat) : Service :=
  match s.lookup m with
  | some o => o.services.getD i Service.unknown
  | none => Service.unknown

/-- Modelled from the spec: `set_compromised(address)` mutator
(spec section 4.4). -/
def State.set_compromised (s : State) (m : Address) : State :=
  s.update m (fun o => { o with compromised := true })

/-- Modelled from the spec: `set_reachable(address)` mutator
(spec section 4.4). -/
def State.set_reachable (s : State) (m : Address) : State :=
  s.update m (fun o => { o with reachable := true })

/-- Modelled from the spec: `update_service_belief(address, index, belief)`
mutator (spec section 4.4). -/
def State.update_service (s : State) (m : Address) (i : Nat) (v : Service) : State :=
  s.update m (fun o => { o with services := o.services.set i v })

/-- Modelled from the spec: `copy()` returns a fully independent snapshot
(spec section 4.4).  On values a deep copy is the identity; whether `step`
hands out a copy or the live `current_state` object is recorded
separately in `StepResult.obsIsCopy`. -/
def State.copy (s : State) : State := s

/-- Modelled from the spec: a Machine of the Network Model — its address,
its fixed ground-truth vulnerability vector (`services[i]` true means
vulnerable to service `i`) and its configured reward value
(spec section 3). -/
structure Machine where
  address : Address
  services : List Bool
  reward : ℚ
deriving DecidableEq

/-- Modelled from the spec: the immutable Network ground truth of
`network.py` (not in the sources): machine counts per subnet, the ordered
machine dictionary, the subnet adjacency matrix and the per-subnet
exposure flags (spec sections 3 and 4.2). -/
structure Network where
  subnets : List Nat
  machines : List (Address × Machine)
  topology : List (List Bool)
  exposed : List Bool
deriving DecidableEq

/-- Modelled from the spec: `address_space()` — the ordered sequence of all
addresses (spec section 4.2), the key order of the machine dictionary. -/
def Network.get_address_space (n : Network) : List Address :=
  n.machines.map Prod.fst

/-- Find the machine at an address, if any. -/
def Network.find_machine (n : Network) (a : Address) : Option Machine :=
  (n.machines.find? (fun p => decide (p.1 = a))).map Prod.snd

/-- Modelled from the spec: `is_exposed(subnet)` query (spec section 4.2). -/
def Network.subnet_exposed (n : Network) (s : Nat) : Bool :=
  n.exposed.getD s false

/-- Modelled from the spec: `are_connected(s1, s2)` adjacency query over
the topology matrix (spec section 4.2). -/
def Network.subnets_connected (n : Network) (s t : Nat) : Bool :=
  (n.topology.getD s []).getD t false

/-- Modelled from the spec: `goal_addresses()` / `get_sensitive_machines`
— every address with nonzero reward (spec section 4.2 and glossary). -/
def Network.get_sensitive_machines (n : Network) : List Address :=
  (n.machines.filter (fun p => decide (p.2.reward ≠ 0))).map Prod.fst

/-- The two action kinds of the spec's Action value (spec section 3). -/
inductive ActionKind where
  | scan
  | exploit
deriving DecidableEq

/-- Modelled from the spec: an immutable Action value — target address,
kind, exploit service index and fixed cost (spec section 3; `action.py`
is not in the sources).  The Bernoulli success probability enters the
model as the explicit draw fed to `Network.perform_action`. -/
structure Action where
  target : Address
  kind : ActionKind
  service : Nat
  cost : ℚ
deriving DecidableEq

/-- `is_scan()` of `action.py`, as used by `_update_state`. -/
def Action.is_scan (a : Action) : Bool :=
  decide (a.kind = ActionKind.scan)

/-- Modelled from the spec: `Network.perform_action` / `resolve(action)`
(spec section 4.3), returning `(success, reward value, revealed services)`.
A scan always succeeds, has value `0` and reveals the target's full
ground-truth vector.  An exploit on a non-vulnerable service fails with
nothing revealed; on a vulnerable service it succeeds exactly when the
explicit Bernoulli draw `draw` does, yielding the machine's reward and its
full vector on success and nothing on a miss (the repository's
`test_network.py` pins the failure triple to `(False, 0, [])`).  The
source asserts the action is well formed; this model returns the failure
triple on a nonexistent address, and every theorem below only applies it
to valid addresses. -/
def Network.perform_action (n : Network) (a : Action) (draw : Bool) :
    Bool × ℚ × List Bool :=
  match n.find_machine a.target with
  | none => (false, 0, [])
  | some mach =>
    match a.kind with
    | ActionKind.scan => (true, 0, mach.services)
    | ActionKind.exploit =>
      if mach.services.getD a.service false then
        if draw then (true, mach.reward, mach.services) else (false, 0, [])
      else (false, 0, [])

/-- The environment of `environment.py`: the immutable network, the
service count and the mutable `current_state` observation. -/
structure Env where
  network : Network
  num_services : Nat
  current_state : State
deriving DecidableEq

/-- The address space field of the environment, assigned in `__init__`
from `self.network.get_address_space()` and never reassigned. -/
def Env.address_space (e : Env) : List Address :=
  e.network.get_address_space

/-- The fresh observation built by `reset` in `environment.py`: for each
address of the address space, all services `unknown`, `compromised` false
and `reachable` true exactly when the address's subnet is exposed. -/
def initObs (n : Network) (num_services : Nat) : State :=
  ⟨n.get_address_space.map (fun m =>
    (m, { compromised := false
          reachable := n.subnet_exposed m.1
          services := List.replicate num_services Service.unknown }))⟩

/-- `reset` of `environment.py`: rebuild the observation fresh and return
a copy of it. -/
def Env.reset (e : Env) : State × Env :=
  let s := initObs e.network e.num_services
  (s.copy, { e with current_state := s })

/-- The belief written for one ground-truth bit in `_update_state`:
`Service.present if services[s] else Service.absent`. -/
def svcBelief (b : Bool) : Service :=
  if b then Service.present else Service.absent

/-- The revelation loop of `_update_state` in `environment.py`:
`for s in range(len(services)): update_service(target, s, ...)`. -/
def applyServiceInfo (st : State) (target : Address) (services : List Bool) : State :=
  services.enum.foldl (fun st p => st.update_service target p.1 (svcBelief p.2)) st

/-- `_update_reachable` of `environment.py`: walk the address space and
mark every not-yet-reachable address whose subnet is connected to the
compromised machine's subnet as reachable. -/
def Env.update_reachable (e : Env) (compromised_m : Address) : Env :=
  let st' :=
    e.network.get_address_space.foldl
      (fun st m =>
        if st.reachable m then st
        else if e.network.subnets_connected compromised_m.1 m.1 then st.set_reachable m
        else st)
      e.current_state
  { e with current_state := st' }

/-- `_update_state` of `environment.py`: on a scan or a successful exploit
reveal the target's full service vector; on a successful exploit
additionally mark the target compromised and propagate reachability; on
an unsuccessful exploit mark the attacked service index absent. -/
def Env.update_state (e : Env) (a : Action) (success : Bool) (services : List Bool) : Env :=
  if a.is_scan || (!a.is_scan && success) then
    let e1 : Env := { e with current_state := applyServiceInfo e.current_state a.target services }
    if !a.is_scan then
      let e2 : Env := { e1 with current_state := e1.current_state.set_compromised a.target }
      e2.update_reachable a.target
    else e1
  else
    { e with current_state := e.current_state.update_service a.target a.service Service.absent }

/-- `_is_goal` of `environment.py`: the goal is reached when every
sensitive machine is compromised in the current observation. -/
def Env.is_goal (e : Env) : Bool :=
  e.network.get_sensitive_machines.all (fun m => e.current_state.compromised m)

/-- The triple returned by `step`, plus `obsIsCopy`, which records whether
the returned observation is a `copy()` snapshot (the reachable branch,
line 133 of `environment.py`) or the live `current_state` object itself
(the unreachable branch, line 124, which returns `self.current_state`
without `.copy()`). -/
structure StepResult where
  obs : State
  obsIsCopy : Bool
  reward : ℚ
  done : Bool
deriving DecidableEq

/-- `step` of `environment.py`.  The Bernoulli draw of a stochastic
exploit is passed in explicitly as `draw`; with deterministic exploit
probabilities (`exploit_probs = 1.0`) the draw is always `true`. -/
def Env.step (e : Env) (a : Action) (draw : Bool) : StepResult × Env :=
  if e.current_state.reachable a.target = false then
    ({ obs := e.current_state, obsIsCopy := false, reward := 0 - a.cost, done := false }, e)
  else
    let r := e.network.perform_action a draw
    let value : ℚ := if e.current_state.compromised a.target then 0 else r.2.1
    let e2 := e.update_state a r.1 r.2.2
    ({ obs := e2.current_state.copy, obsIsCopy := true,
       reward := value - a.cost, done := e2.is_goal }, e2)

/-- Run a sequence of steps, each with its own Bernoulli draw, threading
the environment (the caller's episode loop over `step`). -/
def Env.runSteps (e : Env) (acts : List (Action × Bool)) : Env :=
  acts.foldl (fun e p => (e.step p.1 p.2).2) e

/-- Well-formedness used by the reachability and scan theorems: every
address of the address space has a record in the current observation.
`reset` establishes this and every update preserves it. -/
def Env.Wf (e : Env) : Prop :=
  ∀ m ∈ e.network.get_address_space, (e.current_state.lookup m).isSome = true

instance (e : Env) : Decidable e.Wf := by
  unfold Env.Wf
  exact List.decidableBAll _ _

/-!
A concrete three-machine, one-service network, mirroring the deterministic
scenario of the repository's `test_environment.py` (`from_params(3, 1)`):
one machine per subnet, subnet 0 exposed, the first three subnets fully
connected, machine `(1,0)` sensitive and machine `(2,0)` the rewarded user
machine (`R_SENSITIVE = R_USER = 1000.0`), every machine vulnerable to
service 0.  It is used below as the concrete input of witnesses and
counterexamples.
-/

/-- The concrete three-subnet test network. -/
def testNet : Network :=
  { subnets := [1, 1, 1]
    machines :=
      [((0, 0), { address := (0, 0), services := [true], reward := 0 }),
       ((1, 0), { address := (1, 0), services := [true], reward := 1000 }),
       ((2, 0), { address := (2, 0), services := [true], reward := 1000 })]
    topology := [[true, true, true], [true, true, true], [true, true, true]]
    exposed := [true, false, false] }

/-- The concrete test environment, freshly reset. -/
def testEnv : Env :=
  { network := testNet, num_services := 1, current_state := initObs testNet 1 }

/-- An exploit of service 0 against a target, with unit cost. -/
def exploit0 (t : Address) : Action :=
  { target := t, kind := ActionKind.exploit, service := 0, cost := 1 }

/-- A scan of a target, with unit cost. -/
def scan0 (t : Address) : Action :=
  { target := t, kind := ActionKind.scan, service := 0, cost := 1 }

/-- The test environment after successfully exploiting the exposed entry
machine `(0,0)`. -/
def testEnvAfter0 : Env :=
  testEnv.runSteps [(exploit0 ((0, 0) : Address), true)]

/-- The test environment after successfully exploiting `(0,0)` and then
the user machine `(2,0)`. -/
def testEnvAfter02 : Env :=
  testEnv.runSteps [(exploit0 ((0, 0) : Address), true), (exploit0 ((2, 0) : Address), true)]

/-- The test environment after compromising all three machines: the goal
state. -/
def testEnvDone : Env :=
  testEnv.runSteps
    [(exploit0 ((0, 0) : Address), true), (exploit0 ((1, 0) : Address), true),
     (exploit0 ((2, 0) : Address), true)]

/-!
Seeded construction and seeded runs, for the reproducibility claim.
`loader.py` and the generation half of `network.py` are not in the
sources, so the generator below is modelled from the spec: an explicit,
owned seed drives every random choice (vulnerability assignment at
construction, Bernoulli draws at resolution time), and no global mutable
state exists (spec sections 4.2, 5 and 9).  The topology detail is the
three-subnet layered shape of the small generated networks (exposed
subnet 0, sensitive subnet 1, user subnet 2 with the remainder machines).
-/

/-- Modelled from the spec: one step of the owned pseudo-random source
(a linear congruential generator standing in for the seeded stream). -/
def lcgNext (s : Nat) : Nat :=
  (1103515245 * s + 12345) % 2147483648

/-- Modelled from the spec: draw a vulnerability vector of length `k` from
the owned random source, returning the advanced source. -/
def genVulns : Nat → Nat → List Bool × Nat
  | 0, s => ([], s)
  | k + 1, s =>
    let s' := lcgNext s
    let r := genVulns k s'
    (decide (s' % 2 = 0) :: r.1, r.2)

/-- Modelled from the spec: assign each machine of the address space an
independent random boolean vector, threading the owned random source
(spec section 4.2). -/
def genMachines : List Address → (Address → ℚ) → Nat → Nat → List (Address × Machine)
  | [], _, _, _ => []
  | a :: rest, rew, k, s =>
    let r := genVulns k s
    (a, { address := a, services := r.1, reward := rew a }) :: genMachines rest rew k r.2

/-- Modelled from the spec: the generated address space — subnet 0 is the
exposed entry machine, subnet 1 the sensitive machine, subnet 2 the user
machines (remainder machines appended to the last subnet). -/
def genAddressSpace (num_machines : Nat) : List Address :=
  [(0, 0), (1, 0)] ++ (List.range (num_machines - 2)).map (fun i => (2, i))

/-- Modelled from the spec: reward assignment — the designated sensitive
machine carries `r_sensitive`, the designated user machine `r_user`, all
others 0 (spec section 4.2). -/
def genReward (r_sensitive r_user : ℚ) (a : Address) : ℚ :=
  if a = ((1, 0) : Address) then r_sensitive
  else if a = ((2, 0) : Address) then r_user else 0

/-- Modelled from the spec: `Network(config, seed)` — deterministic
construction of the ground truth from the parameters and the explicit
seed (spec section 4.2). -/
def generate_network (num_machines num_services : Nat) (r_sensitive r_user : ℚ)
    (seed : Nat) : Network :=
  { subnets := [1, 1, num_machines - 2]
    machines := genMachines (genAddressSpace num_machines)
      (genReward r_sensitive r_user) num_services seed
    topology := [[true, true, true], [true, true, true], [true, true, true]]
    exposed := [true, false, false] }

/-- `__init__` of `environment.py`: build the network from the
configuration and the seed, then `reset`. -/
def mkEnv (num_machines num_services : Nat) (r_sensitive r_user : ℚ) (seed : Nat) : Env :=
  let n := generate_network num_machines num_services r_sensitive r_user seed
  { network := n, num_services := num_services, current_state := initObs n num_services }

/-- Modelled from the spec: one step whose Bernoulli draw is derived from
the owned random source rather than supplied by the caller
(spec section 5). -/
def Env.stepSeeded (e : Env) (a : Action) (rng : Nat) : StepResult × Env × Nat :=
  let r' := lcgNext rng
  let res := e.step a (decide (r' % 2 = 0))
  (res.1, res.2, r')

/-- Modelled from the spec: an entire seeded run — the same seed and the
same action sequence reproduce the same observations, rewards and done
flags (spec section 5). -/
def Env.runSeeded (e : Env) (rng : Nat) : List Action → List StepResult × Env × Nat
  | [] => ([], e, rng)
  | a :: rest =>
    let r := e.stepSeeded a rng
    let rest' := r.2.1.runSeeded r.2.2 rest
    (r.1 :: rest'.1, rest'.2)

/-!  Lemmas about the observation dictionary. -/

theorem find_congr {α : Type} (p q : α → Bool) (l : List α) (h : ∀ x ∈ l, p x = q x) :
    l.find? p = l.find? q := by
  induction l with
  | nil => rfl
  | cons x xs ih =>
    have hx := h x (by simp)
    cases hq : q x with
    | true => simp [List.find?_cons, hx, hq]
    | false =>
      simp only [List.find?_cons, hx, hq]
      exact ih (fun y hy => h y (by simp [hy]))

theorem State.lookup_update (s : State) (a : Address) (f : MachineObs → MachineObs)
    (m : Address) :
    (s.update a f).lookup m = if m = a then (s.lookup m).map f else s.lookup m := by
  obtain ⟨l⟩ := s
  show ((l.map (fun p => if p.1 = a then (p.1, f p.2) else p)).find?
      (fun p => decide (p.1 = m))).map Prod.snd = _
  rw [List.find?_map]
  have hpred : ∀ p : Address × MachineObs,
      (fun q : Address × MachineObs => decide (q.1 = m))
        ((fun p => if p.1 = a then (p.1, f p.2) else p) p) = decide (p.1 = m) := by
    intro p
    by_cases hp : p.1 = a <;> simp [hp]
  have hfc : List.find? ((fun p : Address × MachineObs => decide (p.1 = m)) ∘
      (fun p => if p.1 = a then (p.1, f p.2) else p)) l =
      List.find? (fun p : Address × MachineObs => decide (p.1 = m)) l :=
    find_congr _ _ l (fun p _ => hpred p)
  rw [hfc]
  cases hfind : l.find? (fun p => decide (p.1 = m)) with
  | none => simp [State.lookup, hfind]
  | some q =>
    have hq : q.1 = m := by
      have := List.find?_some hfind
      simpa using this
    simp only [State.lookup, hfind, Option.map_map]
    by_cases hma : m = a <;> simp [Function.comp, hq, hma]

theorem State.lookup_isSome_update (s : State) (a : Address) (f : MachineObs → MachineObs)
    (m : Address) :
    ((s.update a f).lookup m).isSome = (s.lookup m).isSome := by
  rw [State.lookup_update]
  by_cases hma : m = a
  · rw [if_pos hma]; cases s.lookup m <;> rfl
  · rw [if_neg hma]

theorem State.lookup_update_of_ne (s : State) (a : Address) (f : MachineObs → MachineObs)
    (m : Address) (h : m ≠ a) :
    (s.update a f).lookup m = s.lookup m := by
  rw [State.lookup_update, if_neg h]

theorem State.reachable_update (s : State) (a : Address) (f : MachineObs → MachineObs)
    (hf : ∀ o, (f o).reachable = o.reachable) (m : Address) :
    (s.update a f).reachable m = s.reachable m := by
  unfold State.reachable
  rw [State.lookup_update]
  by_cases hma : m = a
  · rw [if_pos hma]; cases s.lookup m with
    | none => rfl
    | some o => simp [hf]
  · rw [if_neg hma]

theorem State.compromised_update (s : State) (a : Address) (f : MachineObs → MachineObs)
    (hf : ∀ o, (f o).compromised = o.compromised) (m : Address) :
    (s.update a f).compromised m = s.compromised m := by
  unfold State.compromised
  rw [State.lookup_update]
  by_cases hma : m = a
  · rw [if_pos hma]; cases s.lookup m with
    | none => rfl
    | some o => simp [hf]
  · rw [if_neg hma]

theorem State.reachable_set_compromised (s : State) (a m : Address) :
    (s.set_compromised a).reachable m = s.reachable m :=
  State.reachable_update s a (fun o => { o with compromised := true }) (fun _ => rfl) m

theorem State.reachable_update_service (s : State) (a : Address) (i : Nat) (v : Service)
    (m : Address) :
    (s.update_service a i v).reachable m = s.reachable m :=
  State.reachable_update s a (fun o => { o with services := o.services.set i v })
    (fun _ => rfl) m

theorem State.compromised_set_reachable (s : State) (a m : Address) :
    (s.set_reachable a).compromised m = s.compromised m :=
  State.compromised_update s a (fun o => { o with reachable := true }) (fun _ => rfl) m

theorem State.compromised_update_service (s : State) (a : Address) (i : Nat) (v : Service)
    (m : Address) :
    (s.update_service a i v).compromised m = s.compromised m :=
  State.compromised_update s a (fun o => { o with services := o.services.set i v })
    (fun _ => rfl) m

theorem State.compromised_set_compromised (s : State) (a m : Address) :
    (s.set_compromised a).compromised m =
      (s.compromised m || (decide (m = a) && (s.lookup a).isSome)) := by
  unfold State.compromised State.set_compromised
  rw [State.lookup_update]
  by_cases hma : m = a
  · subst hma
    rw [if_pos rfl]
    cases s.lookup m <;> simp
  · rw [if_neg hma]
    cases s.lookup m <;> simp [hma]

theorem State.reachable_set_reachable (s : State) (a m : Address) :
    (s.set_reachable a).reachable m =
      (s.reachable m || (decide (m = a) && (s.lookup a).isSome)) := by
  unfold State.reachable State.set_reachable
  rw [State.lookup_update]
  by_cases hma : m = a
  · subst hma
    rw [if_pos rfl]
    cases s.lookup m <;> simp
  · rw [if_neg hma]
    cases s.lookup m <;> simp [hma]

/-!  The revelation loop of `_update_state` as a single record rewrite. -/

theorem State.lookup_foldl_update_service (ps : List (Nat × Bool)) (st : State)
    (t m : Address) :
    ((ps.foldl (fun st p => st.update_service t p.1 (svcBelief p.2)) st).lookup m) =
      if m = t then
        (st.lookup t).map
          (fun o => { o with services := ps.foldl (fun l p => l.set p.1 (svcBelief p.2)) o.services })
      else st.lookup m := by
  induction ps generalizing st with
  | nil =>
    simp only [List.foldl_nil]
    by_cases hmt : m = t
    · subst hmt
      rw [if_pos rfl]
      cases h : st.lookup m <;> rfl
    · rw [if_neg hmt]
  | cons p ps ih =>
    rw [List.foldl_cons, ih]
    by_cases hmt : m = t
    · subst hmt
      rw [if_pos rfl, if_pos rfl]
      unfold State.update_service
      rw [State.lookup_update, if_pos rfl, Option.map_map]
      cases st.lookup m <;> rfl
    · rw [if_neg hmt, if_neg hmt]
      exact State.lookup_update_of_ne st t _ m hmt

theorem lookup_applyServiceInfo (st : State) (t : Address) (svc : List Bool) (m : Address) :
    ((applyServiceInfo st t svc).lookup m) =
      if m = t then
        (st.lookup t).map
          (fun o =>
            { o with services := svc.enum.foldl (fun l p => l.set p.1 (svcBelief p.2)) o.services })
      else st.lookup m :=
  State.lookup_foldl_update_service svc.enum st t m

theorem take_succ_set (l : List Service) (k : Nat) (a : Service) (h : k < l.length) :
    (l.set k a).take (k + 1) = l.take k ++ [a] := by
  induction l generalizing k with
  | nil => simp at h
  | cons x xs ih =>
    cases k with
    | zero => rfl
    | succ k =>
      have hk : k < xs.length := by simpa using h
      simp [List.set, List.take, ih k hk]

theorem foldl_set_enumFrom (svc : List Bool) :
    ∀ (k : Nat) (orig : List Service), orig.length = k + svc.length →
      (svc.enumFrom k).foldl (fun l p => l.set p.1 (svcBelief p.2)) orig =
        orig.take k ++ svc.map svcBelief := by
  induction svc with
  | nil =>
    intro k orig h
    simp only [List.enumFrom, List.foldl_nil, List.map_nil, List.append_nil]
    have hk : k = orig.length := by simpa using h.symm
    rw [hk, List.take_length]
  | cons b bs ih =>
    intro k orig h
    simp only [List.length_cons] at h
    have hk : k < orig.length := by omega
    have hlen : (orig.set k (svcBelief b)).length = (k + 1) + bs.length := by
      simp only [List.length_set]; omega
    simp only [List.enumFrom, List.foldl_cons]
    rw [ih (k + 1) (orig.set k (svcBelief b)) hlen, take_succ_set orig k _ hk]
    simp

theorem foldl_set_enum (svc : List Bool) (orig : List Service)
    (h : orig.length = svc.length) :
    svc.enum.foldl (fun l p => l.set p.1 (svcBelief p.2)) orig = svc.map svcBelief := by
  have := foldl_set_enumFrom svc 0 orig (by simpa using h)
  simpa using this

theorem lookup_applyServiceInfo_self (st : State) (t : Address) (svc : List Bool)
    (o : MachineObs) (ho : st.lookup t = some o) (hlen : o.services.length = svc.length) :
    (applyServiceInfo st t svc).lookup t =
      some { o with services := svc.map svcBelief } := by
  rw [lookup_applyServiceInfo, if_pos rfl, ho]
  simp only [Option.map_some']
  rw [foldl_set_enum svc o.services hlen]

theorem reachable_applyServiceInfo (st : State) (t : Address) (svc : List Bool)
    (m : Address) :
    (applyServiceInfo st t svc).reachable m = st.reachable m := by
  unfold State.reachable
  rw [lookup_applyServiceInfo]
  by_cases hmt : m = t
  · subst hmt
    rw [if_pos rfl]
    cases st.lookup m <;> rfl
  · rw [if_neg hmt]

theorem compromised_applyServiceInfo (st : State) (t : Address) (svc : List Bool)
    (m : Address) :
    (applyServiceInfo st t svc).compromised m = st.compromised m := by
  unfold State.compromised
  rw [lookup_applyServiceInfo]
  by_cases hmt : m = t
  · subst hmt
    rw [if_pos rfl]
    cases st.lookup m <;> rfl
  · rw [if_neg hmt]

theorem lookup_isSome_applyServiceInfo (st : State) (t : Address) (svc : List Bool)
    (m : Address) :
    ((applyServiceInfo st t svc).lookup m).isSome = (st.lookup m).isSome := by
  rw [lookup_applyServiceInfo]
  by_cases hmt : m = t
  · subst hmt
    rw [if_pos rfl]
    cases st.lookup m <;> rfl
  · rw [if_neg hmt]

/-!  The reachability-propagation walk of `_update_reachable`. -/

theorem lookup_isSome_set_reachable (st : State) (a m : Address) :
    ((st.set_reachable a).lookup m).isSome = (st.lookup m).isSome :=
  State.lookup_isSome_update st a _ m

theorem reachFold_body_cases (n : Network) (c : Nat) (st : State) (a : Address) :
    (if st.reachable a then st
     else if n.subnets_connected c a.1 then st.set_reachable a else st) = st ∨
    (st.reachable a = false ∧ n.subnets_connected c a.1 = true ∧
     (if st.reachable a then st
      else if n.subnets_connected c a.1 then st.set_reachable a else st) =
        st.set_reachable a) := by
  by_cases h1 : st.reachable a
  · exact Or.inl (if_pos h1)
  · by_cases h2 : n.subnets_connected c a.1
    · refine Or.inr ⟨by simpa using h1, h2, ?_⟩
      rw [if_neg h1, if_pos h2]
    · exact Or.inl (by rw [if_neg h1, if_neg h2])

theorem reachFold_mono (n : Network) (c : Nat) (addrs : List Address) (st : State)
    (m : Address) (h : st.reachable m = true) :
    (addrs.foldl
      (fun st m' =>
        if st.reachable m' then st
        else if n.subnets_connected c m'.1 then st.set_reachable m' else st)
      st).reachable m = true := by
  induction addrs generalizing st with
  | nil => simpa using h
  | cons a rest ih =>
    rw [List.foldl_cons]
    rcases reachFold_body_cases n c st a with hb | ⟨_, _, hb⟩ <;> rw [hb]
    · exact ih st h
    · exact ih _ (by rw [State.reachable_set_reachable, h]; rfl)

theorem reachFold_isSome (n : Network) (c : Nat) (addrs : List Address) (st : State)
    (m : Address) :
    (((addrs.foldl
      (fun st m' =>
        if st.reachable m' then st
        else if n.subnets_connected c m'.1 then st.set_reachable m' else st)
      st).lookup m).isSome) = (st.lookup m).isSome := by
  induction addrs generalizing st with
  | nil => rfl
  | cons a rest ih =>
    rw [List.foldl_cons]
    rcases reachFold_body_cases n c st a with hb | ⟨_, _, hb⟩ <;> rw [hb]
    · exact ih st
    · rw [ih _, lookup_isSome_set_reachable]

theorem reachFold_compromised (n : Network) (c : Nat) (addrs : List Address) (st : State)
    (m : Address) :
    ((addrs.foldl
      (fun st m' =>
        if st.reachable m' then st
        else if n.subnets_connected c m'.1 then st.set_reachable m' else st)
      st).compromised m) = st.compromised m := by
  induction addrs generalizing st with
  | nil => rfl
  | cons a rest ih =>
    rw [List.foldl_cons]
    rcases reachFold_body_cases n c st a with hb | ⟨_, _, hb⟩ <;> rw [hb]
    · exact ih st
    · rw [ih _, State.compromised_set_reachable]

theorem reachFold_not_connected (n : Network) (c : Nat) (addrs : List Address) (st : State)
    (m : Address) (hconn : n.subnets_connected c m.1 = false) :
    ((addrs.foldl
      (fun st m' =>
        if st.reachable m' then st
        else if n.subnets_connected c m'.1 then st.set_reachable m' else st)
      st).reachable m) = st.reachable m := by
  induction addrs generalizing st with
  | nil => rfl
  | cons a rest ih =>
    rw [List.foldl_cons]
    rcases reachFold_body_cases n c st a with hb | ⟨_, hc, hb⟩ <;> rw [hb]
    · exact ih st
    · rw [ih _, State.reachable_set_reachable]
      have hma : decide (m = a) = false := by
        have : m ≠ a := by
          intro h
          rw [h] at hconn
          rw [hconn] at hc
          exact Bool.false_ne_true hc
        simpa using this
      rw [hma]
      simp

theorem reachFold_connected (n : Network) (c : Nat) (addrs : List Address) (st : State)
    (m : Address) (hm : m ∈ addrs) (hconn : n.subnets_connected c m.1 = true)
    (hsome : (st.lookup m).isSome = true) :
    ((addrs.foldl
      (fun st m' =>
        if st.reachable m' then st
        else if n.subnets_connected c m'.1 then st.set_reachable m' else st)
      st).reachable m) = true := by
  induction addrs generalizing st with
  | nil => simp at hm
  | cons a rest ih =>
    rw [List.foldl_cons]
    by_cases hma : m = a
    · subst hma
      by_cases h1 : st.reachable m
      · rw [if_pos h1]
        exact reachFold_mono n c rest st m (by simpa using h1)
      · rw [if_neg h1, if_pos hconn]
        refine reachFold_mono n c rest _ m ?_
        rw [State.reachable_set_reachable]
        simp [hsome]
    · have hmem : m ∈ rest := by
        rcases List.mem_cons.mp hm with h | h
        · exact absurd h hma
        · exact h
      rcases reachFold_body_cases n c st a with hb | ⟨_, _, hb⟩ <;> rw [hb]
      · exact ih st hmem hsome
      · exact ih _ hmem (by rw [lookup_isSome_set_reachable]; exact hsome)

/-!  Shape of `_update_state` in each of its three source branches. -/

theorem update_state_scan (e : Env) (a : Action) (success : Bool) (svc : List Bool)
    (hs : a.is_scan = true) :
    e.update_state a success svc =
      { e with current_state := applyServiceInfo e.current_state a.target svc } := by
  unfold Env.update_state
  rw [hs]
  simp only [Bool.true_or, if_true, Bool.not_true]
  rfl

theorem update_state_exploit_success (e : Env) (a : Action) (svc : List Bool)
    (hs : a.is_scan = false) :
    e.update_state a true svc =
      Env.update_reachable
        { e with current_state :=
            (applyServiceInfo e.current_state a.target svc).set_compromised a.target }
        a.target := by
  unfold Env.update_state
  rw [hs]
  simp only [Bool.false_or, Bool.not_false, Bool.true_and, if_true]

theorem update_state_exploit_failure (e : Env) (a : Action) (svc : List Bool)
    (hs : a.is_scan = false) :
    e.update_state a false svc =
      { e with current_state :=
          e.current_state.update_service a.target a.service Service.absent } := by
  unfold Env.update_state
  rw [hs]
  simp only [Bool.false_or, Bool.and_false, if_false]
  rfl

theorem network_update_reachable (e : Env) (cm : Address) :
    (e.update_reachable cm).network = e.network := rfl

theorem current_state_update_reachable (e : Env) (cm : Address) :
    (e.update_reachable cm).current_state =
      e.network.get_address_space.foldl
        (fun st m' =>
          if st.reachable m' then st
          else if e.network.subnets_connected cm.1 m'.1 then st.set_reachable m' else st)
        e.current_state := rfl

theorem network_update_state (e : Env) (a : Action) (success : Bool) (svc : List Bool) :
    (e.update_state a success svc).network = e.network := by
  cases hs : a.is_scan with
  | true => rw [update_state_scan e a success svc hs]
  | false =>
    cases success with
    | true => rw [update_state_exploit_success e a svc hs, network_update_reachable]
    | false => rw [update_state_exploit_failure e a svc hs]

/-!  Monotonicity of the two observation flags under `_update_state`. -/

theorem reachable_mono_update_state (e : Env) (a : Action) (success : Bool)
    (svc : List Bool) (m : Address) (h : e.current_state.reachable m = true) :
    (e.update_state a success svc).current_state.reachable m = true := by
  cases hs : a.is_scan with
  | true =>
    rw [update_state_scan e a success svc hs]
    rw [show ({ e with current_state := applyServiceInfo e.current_state a.target svc } :
        Env).current_state = applyServiceInfo e.current_state a.target svc from rfl]
    rw [reachable_applyServiceInfo]
    exact h
  | false =>
    cases success with
    | true =>
      rw [update_state_exploit_success e a svc hs, current_state_update_reachable]
      apply reachFold_mono
      rw [State.reachable_set_compromised, reachable_applyServiceInfo]
      exact h
    | false =>
      rw [update_state_exploit_failure e a svc hs]
      rw [show ({ e with current_state :=
          e.current_state.update_service a.target a.service Service.absent } :
          Env).current_state =
          e.current_state.update_service a.target a.service Service.absent from rfl]
      rw [State.reachable_update_service]
      exact h

theorem compromised_mono_update_state (e : Env) (a : Action) (success : Bool)
    (svc : List Bool) (m : Address) (h : e.current_state.compromised m = true) :
    (e.update_state a success svc).current_state.compromised m = true := by
  cases hs : a.is_scan with
  | true =>
    rw [update_state_scan e a success svc hs]
    rw [show ({ e with current_state := applyServiceInfo e.current_state a.target svc } :
        Env).current_state = applyServiceInfo e.current_state a.target svc from rfl]
    rw [compromised_applyServiceInfo]
    exact h
  | false =>
    cases success with
    | true =>
      rw [update_state_exploit_success e a svc hs, current_state_update_reachable]
      rw [reachFold_compromised]
      rw [State.compromised_set_compromised, compromised_applyServiceInfo, h]
      rfl
    | false =>
      rw [update_state_exploit_failure e a svc hs]
      rw [show ({ e with current_state :=
          e.current_state.update_service a.target a.service Service.absent } :
          Env).current_state =
          e.current_state.update_service a.target a.service Service.absent from rfl]
      rw [State.compromised_update_service]
      exact h

theorem lookup_isSome_update_state (e : Env) (a : Action) (success : Bool)
    (svc : List Bool) (m : Address) :
    ((e.update_state a success svc).current_state.lookup m).isSome =
      (e.current_state.lookup m).isSome := by
  cases hs : a.is_scan with
  | true =>
    rw [update_state_scan e a success svc hs]
    exact lookup_isSome_applyServiceInfo e.current_state a.target svc m
  | false =>
    cases success with
    | true =>
      rw [update_state_exploit_success e a svc hs, current_state_update_reachable]
      rw [reachFold_isSome]
      rw [show (({ e with current_state :=
          (applyServiceInfo e.current_state a.target svc).set_compromised a.target } :
          Env).current_state) =
          (applyServiceInfo e.current_state a.target svc).update a.target
            (fun o => { o with compromised := true }) from rfl]
      rw [State.lookup_isSome_update, lookup_isSome_applyServiceInfo]
    | false =>
      rw [update_state_exploit_failure e a svc hs]
      exact State.lookup_isSome_update e.current_state a.target _ m

/-!  Shape of `step` in its two source branches. -/

theorem step_not_reachable (e : Env) (a : Action) (draw : Bool)
    (hr : e.current_state.reachable a.target = false) :
    e.step a draw =
      ({ obs := e.current_state, obsIsCopy := false, reward := 0 - a.cost, done := false },
        e) := by
  unfold Env.step
  rw [if_pos hr]

theorem step_snd_of_reachable (e : Env) (a : Action) (draw : Bool)
    (hr : e.current_state.reachable a.target = true) :
    (e.step a draw).2 =
      e.update_state a (e.network.perform_action a draw).1
        (e.network.perform_action a draw).2.2 := by
  unfold Env.step
  rw [if_neg (by simp [hr])]

theorem step_fst_of_reachable (e : Env) (a : Action) (draw : Bool)
    (hr : e.current_state.reachable a.target = true) :
    (e.step a draw).1 =
      { obs := (e.update_state a (e.network.perform_action a draw).1
            (e.network.perform_action a draw).2.2).current_state.copy
        obsIsCopy := true
        reward := (if e.current_state.compromised a.target then 0
            else (e.network.perform_action a draw).2.1) - a.cost
        done := (e.update_state a (e.network.perform_action a draw).1
            (e.network.perform_action a draw).2.2).is_goal } := by
  unfold Env.step
  rw [if_neg (by simp [hr])]

/-!  Per-index effect of a single `update_service` write. -/

theorem getD_set_self (l : List Service) (i : Nat) (v d : Service) (h : i < l.length) :
    (l.set i v).getD i d = v := by
  induction l generalizing i with
  | nil => simp at h
  | cons x xs ih =>
    cases i with
    | zero => rfl
    | succ i => exact ih i (by simpa using h)

theorem getD_set_ne (l : List Service) (i j : Nat) (v d : Service) (h : j ≠ i) :
    (l.set i v).getD j d = l.getD j d := by
  induction l generalizing i j with
  | nil => rfl
  | cons x xs ih =>
    cases i with
    | zero =>
      cases j with
      | zero => exact absurd rfl h
      | succ j => rfl
    | succ i =>
      cases j with
      | zero => rfl
      | succ j => exact ih i j (fun hji => h (by rw [hji]))

theorem service_state_update_service_self (s : State) (t : Address) (i : Nat) (v : Service)
    (o : MachineObs) (ho : s.lookup t = some o) (h : i < o.services.length) :
    (s.update_service t i v).service_state t i = v := by
  unfold State.service_state State.update_service
  rw [State.lookup_update, if_pos rfl, ho]
  simp only [Option.map_some']
  exact getD_set_self o.services i v Service.unknown h

theorem service_state_update_service_other_index (s : State) (t : Address) (i : Nat)
    (v : Service) (j : Nat) (h : j ≠ i) :
    (s.update_service t i v).service_state t j = s.service_state t j := by
  unfold State.service_state State.update_service
  rw [State.lookup_update, if_pos rfl]
  cases ho : s.lookup t with
  | none => rfl
  | some o =>
    simp only [Option.map_some']
    exact getD_set_ne o.services i j v Service.unknown h

theorem service_state_update_service_other_addr (s : State) (t : Address) (i : Nat)
    (v : Service) (m : Address) (j : Nat) (h : m ≠ t) :
    (s.update_service t i v).service_state m j = s.service_state m j := by
  unfold State.service_state State.update_service
  rw [State.lookup_update, if_neg h]

/-!  Congruence for the goal check over equal compromise flags. -/

theorem all_congr_fn {α : Type} (l : List α) (p q : α → Bool) (h : ∀ x ∈ l, p x = q x) :
    l.all p = l.all q := by
  induction l with
  | nil => rfl
  | cons x xs ih =>
    rw [List.all_cons, List.all_cons, h x (by simp)]
    rw [ih (fun y hy => h y (by simp [hy]))]

theorem is_goal_update_state (e : Env) (a : Action) (success : Bool) (svc : List Bool) :
    (e.update_state a success svc).is_goal =
      e.network.get_sensitive_machines.all
        (fun m => (e.update_state a success svc).current_state.compromised m) := by
  unfold Env.is_goal
  rw [network_update_state]

theorem is_goal_mono_update_state (e : Env) (a : Action) (success : Bool) (svc : List Bool)
    (h : e.is_goal = true) :
    (e.update_state a success svc).is_goal = true := by
  rw [is_goal_update_state]
  unfold Env.is_goal at h
  rw [List.all_eq_true] at h ⊢
  intro m hm
  exact compromised_mono_update_state e a success svc m (h m hm)

/-!  The initial observation of `reset`. -/

theorem lookup_map_self {g : Address → MachineObs} :
    ∀ (l : List Address) (m : Address), m ∈ l →
      (State.mk (l.map (fun x => (x, g x)))).lookup m = some (g m) := by
  intro l
  induction l with
  | nil => intro m hm; simp at hm
  | cons x xs ih =>
    intro m hm
    by_cases hxm : x = m
    · subst hxm
      show (((x, g x) :: xs.map (fun x => (x, g x))).find?
        (fun p => decide (p.1 = x))).map Prod.snd = some (g x)
      rw [List.find?_cons_of_pos _ (by simp)]
      rfl
    · have hmem : m ∈ xs := by
        rcases List.mem_cons.mp hm with h | h
        · exact absurd h.symm hxm
        · exact h
      show (((x, g x) :: xs.map (fun x => (x, g x))).find?
        (fun p => decide (p.1 = m))).map Prod.snd = some (g m)
      rw [List.find?_cons_of_neg _ (by simpa using hxm)]
      exact ih m hmem

theorem lookup_initObs (n : Network) (k : Nat) (m : Address)
    (hm : m ∈ n.get_address_space) :
    (initObs n k).lookup m =
      some { compromised := false, reachable := n.subnet_exposed m.1
             services := List.replicate k Service.unknown } :=
  lookup_map_self n.get_address_space m hm

/-!  Step-level frame and monotonicity facts. -/

theorem network_step (e : Env) (a : Action) (draw : Bool) :
    (e.step a draw).2.network = e.network := by
  by_cases hr : e.current_state.reachable a.target = true
  · rw [step_snd_of_reachable e a draw hr, network_update_state]
  · rw [step_not_reachable e a draw (by simpa using hr)]

theorem reachable_mono_step (e : Env) (a : Action) (draw : Bool) (m : Address)
    (h : e.current_state.reachable m = true) :
    (e.step a draw).2.current_state.reachable m = true := by
  by_cases hr : e.current_state.reachable a.target = true
  · rw [step_snd_of_reachable e a draw hr]
    exact reachable_mono_update_state e a _ _ m h
  · rw [step_not_reachable e a draw (by simpa using hr)]
    exact h

theorem compromised_mono_step (e : Env) (a : Action) (draw : Bool) (m : Address)
    (h : e.current_state.compromised m = true) :
    (e.step a draw).2.current_state.compromised m = true := by
  by_cases hr : e.current_state.reachable a.target = true
  · rw [step_snd_of_reachable e a draw hr]
    exact compromised_mono_update_state e a _ _ m h
  · rw [step_not_reachable e a draw (by simpa using hr)]
    exact h

theorem reachable_mono_runSteps (e : Env) (acts : List (Action × Bool)) (m : Address)
    (h : e.current_state.reachable m = true) :
    (e.runSteps acts).current_state.reachable m = true := by
  induction acts generalizing e with
  | nil => exact h
  | cons p acts ih =>
    show ((((e.step p.1 p.2).2)).runSteps acts).current_state.reachable m = true
    exact ih _ (reachable_mono_step e p.1 p.2 m h)

theorem compromised_mono_runSteps (e : Env) (acts : List (Action × Bool)) (m : Address)
    (h : e.current_state.compromised m = true) :
    (e.runSteps acts).current_state.compromised m = true := by
  induction acts generalizing e with
  | nil => exact h
  | cons p acts ih =>
    show ((((e.step p.1 p.2).2)).runSteps acts).current_state.compromised m = true
    exact ih _ (compromised_mono_step e p.1 p.2 m h)

theorem lookup_isSome_set_compromised (st : State) (a m : Address) :
    ((st.set_compromised a).lookup m).isSome = (st.lookup m).isSome :=
  State.lookup_isSome_update st a (fun o => { o with compromised := true }) m

theorem reachable_after_update_state_success (e : Env) (a : Action) (svc : List Bool)
    (hs : a.is_scan = false) :
    (∀ m, m ∈ e.network.get_address_space →
      e.network.subnets_connected a.target.1 m.1 = true →
      (e.current_state.lookup m).isSome = true →
      (e.update_state a true svc).current_state.reachable m = true) ∧
    (∀ m : Address, e.network.subnets_connected a.target.1 m.1 = false →
      (e.update_state a true svc).current_state.reachable m =
        e.current_state.reachable m) := by
  rw [update_state_exploit_success e a svc hs, current_state_update_reachable]
  constructor
  · intro m hm hconn hsome
    apply reachFold_connected
    · exact hm
    · exact hconn
    · rw [lookup_isSome_set_compromised, lookup_isSome_applyServiceInfo]
      exact hsome
  · intro m hconn
    rw [reachFold_not_connected _ _ _ _ _ hconn]
    rw [State.reachable_set_compromised, reachable_applyServiceInfo]

/-!  The claims. -/

/-- Claim C1, counterexample: on the concrete step whose action targets
the unreachable address `(1,0)` of the fresh test environment, the
returned observation is the live `current_state` object, not an
independent copy — line 124 of `environment.py` returns
`self.current_state` without `.copy()`, refuting the claim's
"independent copy (not a live reference)" part. -/
theorem c1_counterexample :
    testEnv.current_state.reachable ((exploit0 ((1, 0) : Address)).target) = false ∧
    (testEnv.step (exploit0 ((1, 0) : Address)) true).1.obsIsCopy = false := by
  decide

/-- Claim C1, amended: for every step whose action targets an address that
is not reachable in the current observation, `step` returns the live
current observation itself (value-equal to the current state but not an
independent copy), reward exactly `-action.cost`, `done = false`, and
leaves the environment — Network and Observation — unchanged. -/
theorem c1_unreachable_gate (e : Env) (a : Action) (draw : Bool)
    (hr : e.current_state.reachable a.target = false) :
    (e.step a draw).1.obs = e.current_state ∧
    (e.step a draw).1.obsIsCopy = false ∧
    (e.step a draw).1.reward = -a.cost ∧
    (e.step a draw).1.done = false ∧
    (e.step a draw).2 = e := by
  rw [step_not_reachable e a draw hr]
  exact ⟨rfl, rfl, zero_sub a.cost, rfl, rfl⟩

/-- Witness for C1 at the concrete unreachable-target step. -/
theorem c1_witness :
    testEnv.current_state.reachable ((exploit0 ((1, 0) : Address)).target) = false ∧
    ((testEnv.step (exploit0 ((1, 0) : Address)) true).1.obs = testEnv.current_state ∧
     (testEnv.step (exploit0 ((1, 0) : Address)) true).1.obsIsCopy = false ∧
     (testEnv.step (exploit0 ((1, 0) : Address)) true).1.reward =
        -(exploit0 ((1, 0) : Address)).cost ∧
     (testEnv.step (exploit0 ((1, 0) : Address)) true).1.done = false ∧
     (testEnv.step (exploit0 ((1, 0) : Address)) true).2 = testEnv) :=
  ⟨by decide, c1_unreachable_gate testEnv (exploit0 ((1, 0) : Address)) true (by decide)⟩

/-- Claim C4: for every step on a reachable target that was already
compromised in the observation before the action, the returned reward is
exactly `-action.cost` — the machine reward is zeroed by line 128 of
`environment.py`, so reward is granted at most once per machine. -/
theorem c4_reward_once (e : Env) (a : Action) (draw : Bool)
    (hr : e.current_state.reachable a.target = true)
    (hc : e.current_state.compromised a.target = true) :
    (e.step a draw).1.reward = -a.cost := by
  rw [step_fst_of_reachable e a draw hr]
  show (if e.current_state.compromised a.target then (0 : ℚ)
      else (e.network.perform_action a draw).2.1) - a.cost = -a.cost
  rw [if_pos hc]
  exact zero_sub a.cost

/-- Witness for C4: a second successful exploit against the
already-compromised user machine `(2,0)` earns only `-cost`. -/
theorem c4_witness :
    (testEnvAfter02.step (exploit0 ((2, 0) : Address)) true).1.reward =
      -(exploit0 ((2, 0) : Address)).cost :=
  c4_reward_once testEnvAfter02 (exploit0 ((2, 0) : Address)) true (by decide) (by decide)

/-- Claim C6: every `reset()` returns an observation in which, for every
address of the address space, every service belief is `unknown`,
`compromised` is false and `reachable` equals the exposure flag of the
address's subnet. -/
theorem c6_reset_initial_observation (e : Env) (m : Address)
    (hm : m ∈ e.network.get_address_space) :
    (e.reset).1.lookup m =
      some { compromised := false, reachable := e.network.subnet_exposed m.1
             services := List.replicate e.num_services Service.unknown } :=
  lookup_initObs e.network e.num_services m hm

/-- Witness for C6 at the non-exposed address `(1,0)` of the test
environment. -/
theorem c6_witness :
    (testEnv.reset).1.lookup ((1, 0) : Address) =
      some { compromised := false
             reachable := testEnv.network.subnet_exposed ((1, 0) : Address).1
             services := List.replicate testEnv.num_services Service.unknown } :=
  c6_reset_initial_observation testEnv ((1, 0) : Address) (by decide)

/-- Claim C8: within a single episode, for every address, the `reachable`
flag and the `compromised` flag of the observation are monotonically
non-decreasing across `step` calls — once true, no later step makes
either false. -/
theorem c8_flags_monotone (e : Env) (acts : List (Action × Bool)) (m : Address) :
    (e.current_state.reachable m = true →
      (e.runSteps acts).current_state.reachable m = true) ∧
    (e.current_state.compromised m = true →
      (e.runSteps acts).current_state.compromised m = true) :=
  ⟨reachable_mono_runSteps e acts m, compromised_mono_runSteps e acts m⟩

/-- Witness for C8: the flags of the compromised entry machine survive a
further step. -/
theorem c8_witness :
    (testEnvAfter0.runSteps [(scan0 ((1, 0) : Address), true)]).current_state.reachable
        ((0, 0) : Address) = true ∧
    (testEnvAfter0.runSteps [(scan0 ((1, 0) : Address), true)]).current_state.compromised
        ((0, 0) : Address) = true :=
  ⟨(c8_flags_monotone testEnvAfter0 [(scan0 ((1, 0) : Address), true)]
      ((0, 0) : Address)).1 (by decide),
   (c8_flags_monotone testEnvAfter0 [(scan0 ((1, 0) : Address), true)]
      ((0, 0) : Address)).2 (by decide)⟩

/-- Claim C9: two environment constructions from identical seed and
parameters yield identical address spaces, machine vulnerability vectors
and topologies, and an entire seeded run over the same action sequence
yields identical observations, rewards and done flags — all randomness in
the model is threaded through the explicit owned seed, with no global
mutable state. -/
theorem c9_reproducible (nm ns : Nat) (rs ru : ℚ) (S : Nat) (acts : List Action)
    (e1 e2 : Env) (h1 : e1 = mkEnv nm ns rs ru S) (h2 : e2 = mkEnv nm ns rs ru S) :
    e1.network.get_address_space = e2.network.get_address_space ∧
    e1.network.machines = e2.network.machines ∧
    e1.network.topology = e2.network.topology ∧
    e1.runSeeded S acts = e2.runSeeded S acts := by
  subst h1
  subst h2
  exact ⟨rfl, rfl, rfl, rfl⟩

/-- Witness for C9 at seed 7 on the generated 3-machine, 1-service
network. -/
theorem c9_witness :
    (mkEnv 3 1 1000 1000 7).network.get_address_space =
        (mkEnv 3 1 1000 1000 7).network.get_address_space ∧
    (mkEnv 3 1 1000 1000 7).network.machines = (mkEnv 3 1 1000 1000 7).network.machines ∧
    (mkEnv 3 1 1000 1000 7).network.topology = (mkEnv 3 1 1000 1000 7).network.topology ∧
    (mkEnv 3 1 1000 1000 7).runSeeded 7 [exploit0 ((0, 0) : Address)] =
        (mkEnv 3 1 1000 1000 7).runSeeded 7 [exploit0 ((0, 0) : Address)] :=
  c9_reproducible 3 1 1000 1000 7 [exploit0 ((0, 0) : Address)]
    (mkEnv 3 1 1000 1000 7) (mkEnv 3 1 1000 1000 7) rfl rfl

/-- Claim C10: after the goal state is reached, `step` calls are not
rejected — a further step on a reachable target goes through the same
resolution and update rules as during the episode (the second component
equals `_update_state` applied to the resolver's output) and returns
`done = true`, because no step ever clears a compromised flag. -/
theorem c10_step_after_goal (e : Env) (a : Action) (draw : Bool)
    (hg : e.is_goal = true) (hr : e.current_state.reachable a.target = true) :
    (e.step a draw).2 =
      e.update_state a (e.network.perform_action a draw).1
        (e.network.perform_action a draw).2.2 ∧
    (e.step a draw).1.done = true := by
  refine ⟨step_snd_of_reachable e a draw hr, ?_⟩
  rw [step_fst_of_reachable e a draw hr]
  exact is_goal_mono_update_state e a _ _ hg

/-- Witness for C10: a scan after all goal machines are compromised still
returns `done = true`. -/
theorem c10_witness :
    (testEnvDone.step (scan0 ((0, 0) : Address)) true).1.done = true :=
  (c10_step_after_goal testEnvDone (scan0 ((0, 0) : Address)) true
    (by decide) (by decide)).2

/-- Claim C2: for every step call during an episode in progress (the goal
not yet reached), the returned `done` flag is true if and only if every
sensitive machine — every machine with nonzero reward — is marked
compromised in the observation after that step's update. -/
theorem c2_done_iff_goal (e : Env) (a : Action) (draw : Bool)
    (hprog : e.is_goal = false) :
    ((e.step a draw).1.done = true ↔
      ∀ m ∈ e.network.get_sensitive_machines,
        (e.step a draw).2.current_state.compromised m = true) := by
  by_cases hr : e.current_state.reachable a.target = true
  · rw [step_fst_of_reachable e a draw hr, step_snd_of_reachable e a draw hr]
    rw [is_goal_update_state]
    exact List.all_eq_true
  · have hr' : e.current_state.reachable a.target = false := by simpa using hr
    rw [step_not_reachable e a draw hr']
    constructor
    · intro h
      exact absurd h Bool.false_ne_true
    · intro h
      exfalso
      have hgoal : e.is_goal = true := List.all_eq_true.mpr h
      rw [hprog] at hgoal
      exact Bool.false_ne_true hgoal

/-- Witness for C2 at a concrete in-progress step. -/
theorem c2_witness :
    ((testEnv.step (exploit0 ((0, 0) : Address)) true).1.done = true ↔
      ∀ m ∈ testEnv.network.get_sensitive_machines,
        (testEnv.step (exploit0 ((0, 0) : Address)) true).2.current_state.compromised m =
          true) :=
  c2_done_iff_goal testEnv (exploit0 ((0, 0) : Address)) true (by decide)

/-- Claim C3, counterexample: at the concrete step where the reachable
entry machine `(0,0)` is genuinely vulnerable to service 0 but the
Bernoulli draw fails, the source's `_update_state` else-branch marks the
attacked index `absent`, so the attacked index does not keep its previous
(`unknown`) belief — refuting the claim that no service information
changes on a probabilistic miss. -/
theorem c3_counterexample :
    ((testNet.find_machine ((0, 0) : Address)).map
        (fun mach => mach.services.getD 0 false)) = some true ∧
    testEnv.current_state.reachable ((0, 0) : Address) = true ∧
    testEnv.current_state.service_state ((0, 0) : Address) 0 = Service.unknown ∧
    (testEnv.step (exploit0 ((0, 0) : Address)) false).2.current_state.service_state
        ((0, 0) : Address) 0 = Service.absent := by
  decide

/-- Claim C3, amended: for every exploit on a reachable target whose
targeted service is genuinely vulnerable but whose Bernoulli draw fails,
the step sets the attacked service index's belief to `absent` (the source
collapses the probabilistic miss with the not-vulnerable case) while
every other service belief — of the target and of every other address —
keeps its previous value. -/
theorem c3_probabilistic_miss_marks_absent (e : Env) (a : Action) (mach : Machine)
    (o : MachineObs)
    (hs : a.is_scan = false)
    (hr : e.current_state.reachable a.target = true)
    (hm : e.network.find_machine a.target = some mach)
    (hvuln : mach.services.getD a.service false = true)
    (ho : e.current_state.lookup a.target = some o)
    (hlen : a.service < o.services.length) :
    (e.step a false).2.current_state.service_state a.target a.service = Service.absent ∧
    (∀ i, i ≠ a.service →
      (e.step a false).2.current_state.service_state a.target i =
        e.current_state.service_state a.target i) ∧
    (∀ m, m ≠ a.target → ∀ i,
      (e.step a false).2.current_state.service_state m i =
        e.current_state.service_state m i) := by
  have hkind : a.kind = ActionKind.exploit := by
    cases hk : a.kind with
    | scan => rw [Action.is_scan, hk] at hs; simp at hs
    | exploit => rfl
  have hpa : e.network.perform_action a false = (false, 0, []) := by
    unfold Network.perform_action
    rw [hm, hkind]
    show (if mach.services.getD a.service false = true then
        (if (false : Bool) = true then (true, mach.reward, mach.services)
         else ((false : Bool), (0 : ℚ), ([] : List Bool)))
      else ((false : Bool), (0 : ℚ), ([] : List Bool))) =
        ((false : Bool), (0 : ℚ), ([] : List Bool))
    rw [if_pos hvuln]
    rfl
  have hsucc : (e.network.perform_action a false).1 = false := by rw [hpa]
  have hsvc : (e.network.perform_action a false).2.2 = [] := by rw [hpa]
  rw [step_snd_of_reachable e a false hr, hsucc, hsvc]
  rw [update_state_exploit_failure e a [] hs]
  refine ⟨?_, ?_, ?_⟩
  · exact service_state_update_service_self e.current_state a.target a.service
      Service.absent o ho hlen
  · intro i hi
    exact service_state_update_service_other_index e.current_state a.target a.service
      Service.absent i hi
  · intro m hmt i
    exact service_state_update_service_other_addr e.current_state a.target a.service
      Service.absent m i hmt

/-- Witness for C3 at the concrete probabilistic miss on `(0,0)`. -/
theorem c3_witness :
    (testEnv.step (exploit0 ((0, 0) : Address)) false).2.current_state.service_state
        ((0, 0) : Address) 0 = Service.absent :=
  (c3_probabilistic_miss_marks_absent testEnv (exploit0 ((0, 0) : Address))
    { address := (0, 0), services := [true], reward := 0 }
    { compromised := false, reachable := true, services := [Service.unknown] }
    (by decide) (by decide) (by decide) (by decide) (by decide) (by decide)).1

/-- Claim C5: for every step containing a successful exploit on a machine
in subnet A, every address of the address space lying in a subnet
connected to A is reachable in the resulting observation, and the
reachability flag of every address in a subnet not connected to A is
unchanged by that step. -/
theorem c5_reachability_propagation (e : Env) (a : Action) (draw : Bool)
    (hwf : e.Wf) (hs : a.is_scan = false)
    (hr : e.current_state.reachable a.target = true)
    (hsucc : (e.network.perform_action a draw).1 = true) :
    (∀ m ∈ e.network.get_address_space,
      e.network.subnets_connected a.target.1 m.1 = true →
      (e.step a draw).2.current_state.reachable m = true) ∧
    (∀ m : Address, e.network.subnets_connected a.target.1 m.1 = false →
      (e.step a draw).2.current_state.reachable m = e.current_state.reachable m) := by
  rw [step_snd_of_reachable e a draw hr, hsucc]
  have h := reachable_after_update_state_success e a
    (e.network.perform_action a draw).2.2 hs
  exact ⟨fun m hm hconn => h.1 m hm hconn (hwf m hm), fun m hconn => h.2 m hconn⟩

/-- Witness for C5: exploiting the entry machine makes the connected
subnet-1 machine reachable and leaves an address in an unconnected subnet
untouched. -/
theorem c5_witness :
    (testEnv.step (exploit0 ((0, 0) : Address)) true).2.current_state.reachable
        ((1, 0) : Address) = true ∧
    (testEnv.step (exploit0 ((0, 0) : Address)) true).2.current_state.reachable
        ((9, 0) : Address) = testEnv.current_state.reachable ((9, 0) : Address) :=
  ⟨(c5_reachability_propagation testEnv (exploit0 ((0, 0) : Address)) true
      (by decide) (by decide) (by decide) (by decide)).1 ((1, 0) : Address)
      (by decide) (by decide),
   (c5_reachability_propagation testEnv (exploit0 ((0, 0) : Address)) true
      (by decide) (by decide) (by decide) (by decide)).2 ((9, 0) : Address) (by decide)⟩

/-- Claim C7: for every scan on a reachable target while the episode is in
progress, `step` returns reward exactly `0 - action.cost` and
`done = false`, and the resulting observation's service beliefs of the
target equal the machine's ground-truth vulnerability vector (`present`
where true, `absent` where false, via `svcBelief`). -/
theorem c7_scan_reveals_ground_truth (e : Env) (a : Action) (draw : Bool)
    (mach : Machine) (o : MachineObs)
    (hs : a.is_scan = true)
    (hr : e.current_state.reachable a.target = true)
    (hprog : e.is_goal = false)
    (hm : e.network.find_machine a.target = some mach)
    (ho : e.current_state.lookup a.target = some o)
    (hlen : o.services.length = mach.services.length) :
    (e.step a draw).1.reward = 0 - a.cost ∧
    (e.step a draw).1.done = false ∧
    (e.step a draw).2.current_state.lookup a.target =
      some { o with services := mach.services.map svcBelief } := by
  have hkind : a.kind = ActionKind.scan := by
    rw [Action.is_scan] at hs
    exact of_decide_eq_true hs
  have hpa : e.network.perform_action a draw = (true, 0, mach.services) := by
    unfold Network.perform_action
    rw [hm, hkind]
  refine ⟨?_, ?_, ?_⟩
  · rw [step_fst_of_reachable e a draw hr]
    show (if e.current_state.compromised a.target = true then (0 : ℚ)
        else (e.network.perform_action a draw).2.1) - a.cost = 0 - a.cost
    rw [hpa]
    by_cases hc : e.current_state.compromised a.target = true
    · rw [if_pos hc]
    · rw [if_neg hc]
  · rw [step_fst_of_reachable e a draw hr]
    show (e.update_state a (e.network.perform_action a draw).1
        (e.network.perform_action a draw).2.2).is_goal = false
    rw [is_goal_update_state, update_state_scan e a _ _ hs]
    have hcomp : ∀ m ∈ e.network.get_sensitive_machines,
        (applyServiceInfo e.current_state a.target
          (e.network.perform_action a draw).2.2).compromised m =
          e.current_state.compromised m :=
      fun m _ => compromised_applyServiceInfo e.current_state a.target _ m
    rw [all_congr_fn _ _ _ hcomp]
    exact hprog
  · rw [step_snd_of_reachable e a draw hr, hpa]
    rw [update_state_scan e a _ _ hs]
    exact lookup_applyServiceInfo_self e.current_state a.target mach.services o ho hlen

/-- Witness for C7: scanning the entry machine reveals its ground truth
and does not end the episode. -/
theorem c7_witness :
    (testEnv.step (scan0 ((0, 0) : Address)) true).1.reward =
        0 - (scan0 ((0, 0) : Address)).cost ∧
    (testEnv.step (scan0 ((0, 0) : Address)) true).1.done = false ∧
    (testEnv.step (scan0 ((0, 0) : Address)) true).2.current_state.lookup
        ((0, 0) : Address) =
      some { compromised := false, reachable := true
             services := List.map svcBelief [true] } :=
  c7_scan_reveals_ground_truth testEnv (scan0 ((0, 0) : Address)) true
    { address := (0, 0), services := [true], reward := 0 }
    { compromised := false, reachable := true, services := [Service.unknown] }
    (by decide) (by decide) (by decide) (by decide) (by decide) (by decide)

end NAS
